import Mathlib

set_option linter.unusedSectionVars false

/-!
Verification of the `dual_quaternion` library (`src/lib.rs`).

The library defines `DualQuaternion<T> = (Quaternion<T>, Quaternion<T>)` and ten
pure operations over it, generic over a scalar type `T: Float`.  We embed the
scalar type as an arbitrary field `α` (the source only uses `zero`, `one`,
`from_f64(0.5)`, `from_f64(2.0)`, `sqrt`, arithmetic and negation); `sqrt` is
passed explicitly to the one operation that uses it (`normalize`), so every
definition stays executable.

The source delegates quaternion arithmetic to the external `quaternion` crate
and vector arithmetic to the external `vecmath` crate; the spec (section 6)
describes both as external capabilities with the standard semantics (Hamilton
product, componentwise vector arithmetic).  Those collaborator operations are
embedded below under `Vec3.*` and `Quat.*` with exactly the crate semantics.
-/

namespace DualQuat

/-- `Vector3<T>` of the `vecmath` crate: a fixed 3-scalar tuple. -/
abbrev Vector3 (α : Type) : Type := α × α × α

/-- `Quaternion<T>` of the `quaternion` crate: `(T, [T; 3])`,
scalar part plus 3-vector part. -/
abbrev Quaternion (α : Type) : Type := α × Vector3 α

/-- `DualQuaternion<T>` (src/lib.rs line 12): a real component and a dual
component. -/
abbrev DualQuaternion (α : Type) : Type := Quaternion α × Quaternion α

variable {α : Type} [Field α] [CharZero α]

namespace Vec3

/-- `vecmath::vec3_add`: componentwise addition. -/
def add (a b : Vector3 α) : Vector3 α :=
  (a.1 + b.1, a.2.1 + b.2.1, a.2.2 + b.2.2)

/-- `vecmath::vec3_scale`: multiply each component by a scalar. -/
def scale (v : Vector3 α) (t : α) : Vector3 α :=
  (v.1 * t, v.2.1 * t, v.2.2 * t)

/-- `vecmath::vec3_neg`: componentwise negation. -/
def neg (v : Vector3 α) : Vector3 α :=
  (-v.1, -v.2.1, -v.2.2)

/-- `vecmath::vec3_dot`: Euclidean dot product. -/
def dot (a b : Vector3 α) : α :=
  a.1 * b.1 + a.2.1 * b.2.1 + a.2.2 * b.2.2

/-- `vecmath::vec3_cross`: the 3-D cross product. -/
def cross (a b : Vector3 α) : Vector3 α :=
  (a.2.1 * b.2.2 - a.2.2 * b.2.1,
   a.2.2 * b.1 - a.1 * b.2.2,
   a.1 * b.2.1 - a.2.1 * b.1)

end Vec3

namespace Quat

/-- `quaternion::id`: the identity quaternion `(1, [0,0,0])`. -/
def id : Quaternion α := (1, (0, 0, 0))

/-- `quaternion::add`: componentwise addition. -/
def add (a b : Quaternion α) : Quaternion α :=
  (a.1 + b.1, Vec3.add a.2 b.2)

/-- `quaternion::scale`: multiply every component by a scalar. -/
def scale (q : Quaternion α) (t : α) : Quaternion α :=
  (q.1 * t, Vec3.scale q.2 t)

/-- `quaternion::mul`: the Hamilton product,
`(a0*b0 - <av,bv>, a0*bv + b0*av + av x bv)`. -/
def mul (a b : Quaternion α) : Quaternion α :=
  (a.1 * b.1 - Vec3.dot a.2 b.2,
   Vec3.add (Vec3.add (Vec3.scale b.2 a.1) (Vec3.scale a.2 b.1))
     (Vec3.cross a.2 b.2))

/-- `quaternion::conj`: keep the scalar part, negate the vector part. -/
def conj (a : Quaternion α) : Quaternion α :=
  (a.1, Vec3.neg a.2)

/-- `quaternion::dot`: the 4-component dot product. -/
def dot (a b : Quaternion α) : α :=
  a.1 * b.1 + Vec3.dot a.2 b.2

end Quat

/-- `id` (src/lib.rs lines 16-23): the identity dual-quaternion
`((1,[0,0,0]), (0,[0,0,0]))`. -/
def id : DualQuaternion α :=
  ((1, (0, 0, 0)), (0, (0, 0, 0)))

/-- `from_rotation_and_translation` (src/lib.rs lines 27-37):
real part is the rotation, dual part is `0.5 * ((0, translation) * rotation)`. -/
def from_rotation_and_translation (rotation : Quaternion α)
    (translation : Vector3 α) : DualQuaternion α :=
  (rotation,
   Quat.scale (Quat.mul ((0 : α), translation) rotation) (1 / 2))

/-- `add` (src/lib.rs lines 41-46): componentwise quaternion addition. -/
def add (a b : DualQuaternion α) : DualQuaternion α :=
  (Quat.add a.1 b.1, Quat.add a.2 b.2)

/-- `mul` (src/lib.rs lines 50-58): real part `a.real * b.real`,
dual part `a.real * b.dual + a.dual * b.real`. -/
def mul (a b : DualQuaternion α) : DualQuaternion α :=
  (Quat.mul a.1 b.1,
   Quat.add (Quat.mul a.1 b.2) (Quat.mul a.2 b.1))

/-- `scale` (src/lib.rs lines 62-65): scale both parts elementwise. -/
def scale (q : DualQuaternion α) (t : α) : DualQuaternion α :=
  (Quat.scale q.1 t, Quat.scale q.2 t)

/-- `conj` (src/lib.rs lines 69-74): quaternion-conjugate both parts. -/
def conj (q : DualQuaternion α) : DualQuaternion α :=
  (Quat.conj q.1, Quat.conj q.2)

/-- `dot` (src/lib.rs lines 78-80): the quaternion dot product of the real
parts only. -/
def dot (a b : DualQuaternion α) : α :=
  Quat.dot a.1 b.1

/-- `normalize` (src/lib.rs lines 83-92).  The scalar capability's `sqrt` is
passed explicitly; `real_len_recip = 1 / sqrt(dot(q,q))`. -/
def normalize (sqrt : α → α) (q : DualQuaternion α) : DualQuaternion α :=
  let real_len_recip := 1 / sqrt (dot q q)
  (Quat.scale q.1 real_len_recip,
   Quat.add (Quat.scale q.2 real_len_recip)
     (Quat.scale q.1 (-(Quat.dot q.1 q.2))))

/-- `get_rotation` (src/lib.rs lines 95-97): returns the real part. -/
def get_rotation (q : DualQuaternion α) : Quaternion α :=
  q.1

/-- `get_translation` (src/lib.rs lines 100-107): the vector part of
`(2 * q.dual) * conj(q.real)`. -/
def get_translation (q : DualQuaternion α) : Vector3 α :=
  (Quat.mul (Quat.scale q.2 (2 : α)) (Quat.conj q.1)).2

/-- Claim C1: for every unit-length rotation quaternion `R` and every
translation vector `V`, `get_rotation (from_rotation_and_translation R V) = R`
and `get_translation (from_rotation_and_translation R V) = V`, exactly over
exact scalar arithmetic. -/
theorem claim1_round_trip (R : Quaternion α) (V : Vector3 α)
    (h : Quat.dot R R = 1) :
    get_rotation (from_rotation_and_translation R V) = R ∧
    get_translation (from_rotation_and_translation R V) = V := by
  obtain ⟨s, x, y, z⟩ := R
  obtain ⟨v1, v2, v3⟩ := V
  simp only [Quat.dot, Vec3.dot] at h
  refine ⟨rfl, ?_⟩
  simp only [get_translation, get_rotation, from_rotation_and_translation,
    Quat.mul, Quat.scale, Quat.conj, Vec3.add, Vec3.scale, Vec3.dot, Vec3.cross,
    Vec3.neg, Prod.mk.injEq]
  refine ⟨?_, ?_, ?_⟩
  · linear_combination v1 * h
  · linear_combination v2 * h
  · linear_combination v3 * h

/-- Concrete instance of C1 at `R = (1,(0,0,0))`, `V = (1,2,3)` over `ℚ`. -/
theorem claim1_round_trip_witness :
    Quat.dot ((1, (0, 0, 0)) : Quaternion ℚ) ((1, (0, 0, 0)) : Quaternion ℚ) = 1 ∧
    get_rotation (from_rotation_and_translation ((1, (0, 0, 0)) : Quaternion ℚ)
      ((1, 2, 3) : Vector3 ℚ)) = (1, (0, 0, 0)) ∧
    get_translation (from_rotation_and_translation ((1, (0, 0, 0)) : Quaternion ℚ)
      ((1, 2, 3) : Vector3 ℚ)) = (1, 2, 3) := by
  have h : Quat.dot ((1, (0, 0, 0)) : Quaternion ℚ) ((1, (0, 0, 0)) : Quaternion ℚ) = 1 := by
    norm_num [Quat.dot, Vec3.dot]
  exact ⟨h, (claim1_round_trip _ _ h).1, (claim1_round_trip _ _ h).2⟩

omit [CharZero α] in
/-- Claim C2: `mul a b` returns the pair whose real part is `a.real * b.real`
and whose dual part is `a.real * b.dual + a.dual * b.real` (ordering
variant (i) of the spec). -/
theorem claim2_mul_ordering (a b : DualQuaternion α) :
    mul a b =
      (Quat.mul a.1 b.1, Quat.add (Quat.mul a.1 b.2) (Quat.mul a.2 b.1)) :=
  rfl

omit [CharZero α] in
/-- Claim C3: `mul DualQuat.id x = x` and `mul x DualQuat.id = x` for every
dual-quaternion `x`, where `DualQuat.id` is `((1,[0,0,0]), (0,[0,0,0]))`. -/
theorem claim3_identity_law (x : DualQuaternion α) :
    DualQuat.id = (((1, (0, 0, 0)), (0, (0, 0, 0))) : DualQuaternion α) ∧
    mul DualQuat.id x = x ∧ mul x DualQuat.id = x := by
  obtain ⟨⟨a0, a1, a2, a3⟩, ⟨b0, b1, b2, b3⟩⟩ := x
  refine ⟨rfl, ?_, ?_⟩ <;>
  · simp only [mul, DualQuat.id, Quat.mul, Quat.add, Vec3.add, Vec3.scale,
      Vec3.dot, Vec3.cross, Prod.mk.injEq]
    refine ⟨⟨?_, ?_, ?_, ?_⟩, ?_, ?_, ?_, ?_⟩ <;> ring

/-- Claim C4: for every dual-quaternion built by `from_rotation_and_translation`
from a unit-length rotation `R` and any translation `V`, multiplying it by its
conjugate yields extracted translation `[0,0,0]` and extracted rotation equal
to the identity quaternion. -/
theorem claim4_conj_inverse (R : Quaternion α) (V : Vector3 α)
    (h : Quat.dot R R = 1) :
    get_translation (mul (from_rotation_and_translation R V)
      (conj (from_rotation_and_translation R V))) = (0, 0, 0) ∧
    get_rotation (mul (from_rotation_and_translation R V)
      (conj (from_rotation_and_translation R V))) = (1, (0, 0, 0)) := by
  obtain ⟨s, x, y, z⟩ := R
  obtain ⟨v1, v2, v3⟩ := V
  simp only [Quat.dot, Vec3.dot] at h
  simp only [get_translation, get_rotation, mul, conj,
    from_rotation_and_translation, Quat.mul, Quat.scale, Quat.conj, Quat.add,
    Vec3.add, Vec3.scale, Vec3.dot, Vec3.cross, Vec3.neg, Prod.mk.injEq]
  refine ⟨⟨?_, ?_, ?_⟩, ?_, ?_, ?_, ?_⟩
  · ring
  · ring
  · ring
  · linear_combination h
  · ring
  · ring
  · ring

/-- Concrete instance of C4 at `R = (1,(0,0,0))`, `V = (1,2,3)` over `ℚ`. -/
theorem claim4_conj_inverse_witness :
    Quat.dot ((1, (0, 0, 0)) : Quaternion ℚ) ((1, (0, 0, 0)) : Quaternion ℚ) = 1 ∧
    get_translation (mul (from_rotation_and_translation ((1, (0, 0, 0)) : Quaternion ℚ)
        ((1, 2, 3) : Vector3 ℚ))
      (conj (from_rotation_and_translation ((1, (0, 0, 0)) : Quaternion ℚ)
        ((1, 2, 3) : Vector3 ℚ)))) = (0, 0, 0) ∧
    get_rotation (mul (from_rotation_and_translation ((1, (0, 0, 0)) : Quaternion ℚ)
        ((1, 2, 3) : Vector3 ℚ))
      (conj (from_rotation_and_translation ((1, (0, 0, 0)) : Quaternion ℚ)
        ((1, 2, 3) : Vector3 ℚ)))) = (1, (0, 0, 0)) := by
  have h : Quat.dot ((1, (0, 0, 0)) : Quaternion ℚ) ((1, (0, 0, 0)) : Quaternion ℚ) = 1 := by
    norm_num [Quat.dot, Vec3.dot]
  exact ⟨h, (claim4_conj_inverse _ _ h).1, (claim4_conj_inverse _ _ h).2⟩

/-- Claim C5: for every dual-quaternion `q` whose real part has nonzero dot
product with itself, `normalize` returns real part `q.real * k` and dual part
`q.dual * k + q.real * (-dot(q.real, q.dual))`, with
`k = 1 / sqrt(dot(q,q))` and `dot(q,q)` the real-part dot product. -/
theorem claim5_normalize_formula (sqrt : α → α) (q : DualQuaternion α)
    (_h : Quat.dot q.1 q.1 ≠ 0) :
    normalize sqrt q =
      (Quat.scale q.1 (1 / sqrt (Quat.dot q.1 q.1)),
       Quat.add (Quat.scale q.2 (1 / sqrt (Quat.dot q.1 q.1)))
         (Quat.scale q.1 (-(Quat.dot q.1 q.2)))) :=
  rfl

/-- Concrete instance of C5 at `q = ((1,(0,0,0)), (2,(3,4,5)))` over `ℚ`
with `sqrt` instantiated by the identity map. -/
theorem claim5_normalize_formula_witness :
    Quat.dot ((1, (0, 0, 0)) : Quaternion ℚ) ((1, (0, 0, 0)) : Quaternion ℚ) ≠ 0 ∧
    normalize (fun t : ℚ => t) (((1, (0, 0, 0)), (2, (3, 4, 5))) : DualQuaternion ℚ) =
      (Quat.scale ((1, (0, 0, 0)) : Quaternion ℚ)
        (1 / (fun t : ℚ => t) (Quat.dot ((1, (0, 0, 0)) : Quaternion ℚ) (1, (0, 0, 0)))),
       Quat.add
         (Quat.scale ((2, (3, 4, 5)) : Quaternion ℚ)
           (1 / (fun t : ℚ => t) (Quat.dot ((1, (0, 0, 0)) : Quaternion ℚ) (1, (0, 0, 0)))))
         (Quat.scale ((1, (0, 0, 0)) : Quaternion ℚ)
           (-(Quat.dot ((1, (0, 0, 0)) : Quaternion ℚ) (2, (3, 4, 5)))))) := by
  have h : Quat.dot ((1, (0, 0, 0)) : Quaternion ℚ) ((1, (0, 0, 0)) : Quaternion ℚ) ≠ 0 := by
    norm_num [Quat.dot, Vec3.dot]
  exact ⟨h, claim5_normalize_formula _ _ h⟩

/-- Claim C6: on a dual-quaternion already satisfying the rigid-transform
invariant (`dot(real,real) = 1`, `dot(real,dual) = 0`), `normalize` is the
identity over exact scalar arithmetic (for any `sqrt` with `sqrt 1 = 1`), so
applying it twice returns the input unchanged. -/
theorem claim6_normalize_idempotent (sqrt : α → α) (q : DualQuaternion α)
    (hs : sqrt 1 = 1) (h1 : Quat.dot q.1 q.1 = 1) (h2 : Quat.dot q.1 q.2 = 0) :
    normalize sqrt q = q ∧ normalize sqrt (normalize sqrt q) = q := by
  obtain ⟨⟨s, x, y, z⟩, ⟨u0, u1, u2, u3⟩⟩ := q
  simp only [Quat.dot, Vec3.dot] at h1 h2
  have key : normalize sqrt (((s, x, y, z), (u0, u1, u2, u3)) : DualQuaternion α) =
      ((s, x, y, z), (u0, u1, u2, u3)) := by
    simp only [normalize, dot, Quat.dot, Vec3.dot, Quat.scale, Quat.add,
      Vec3.scale, Vec3.add]
    rw [h1, h2, hs]
    norm_num
  exact ⟨key, by rw [key, key]⟩

/-- Concrete instance of C6 at the identity dual-quaternion over `ℚ` with
`sqrt` instantiated by the identity map. -/
theorem claim6_normalize_idempotent_witness :
    (fun t : ℚ => t) 1 = 1 ∧
    Quat.dot ((1, (0, 0, 0)) : Quaternion ℚ) ((1, (0, 0, 0)) : Quaternion ℚ) = 1 ∧
    Quat.dot ((1, (0, 0, 0)) : Quaternion ℚ) ((0, (0, 0, 0)) : Quaternion ℚ) = 0 ∧
    normalize (fun t : ℚ => t)
      (normalize (fun t : ℚ => t) (((1, (0, 0, 0)), (0, (0, 0, 0))) : DualQuaternion ℚ)) =
      ((1, (0, 0, 0)), (0, (0, 0, 0))) := by
  have h1 : Quat.dot ((1, (0, 0, 0)) : Quaternion ℚ) ((1, (0, 0, 0)) : Quaternion ℚ) = 1 := by
    norm_num [Quat.dot, Vec3.dot]
  have h2 : Quat.dot ((1, (0, 0, 0)) : Quaternion ℚ) ((0, (0, 0, 0)) : Quaternion ℚ) = 0 := by
    norm_num [Quat.dot, Vec3.dot]
  exact ⟨rfl, h1, h2, (claim6_normalize_idempotent _ _ rfl h1 h2).2⟩

omit [CharZero α] in
/-- Claim C7: `dot a b` equals the quaternion dot product of the real parts
alone, and is unchanged under any replacement of the dual parts. -/
theorem claim7_dot_real_parts_only (a b : DualQuaternion α) :
    dot a b = Quat.dot a.1 b.1 ∧
    ∀ d1 d2 : Quaternion α, dot (a.1, d1) (b.1, d2) = dot a b :=
  ⟨rfl, fun _ _ => rfl⟩

omit [CharZero α] in
/-- Claim C9: the dual-quaternion conjugate is an involution,
`conj (conj q) = q`. -/
theorem claim9_conj_involution (q : DualQuaternion α) :
    conj (conj q) = q := by
  obtain ⟨⟨a0, a1, a2, a3⟩, ⟨b0, b1, b2, b3⟩⟩ := q
  simp [conj, Quat.conj, Vec3.neg]

omit [CharZero α] in
/-- Claim C10: for every rotation quaternion `R` (unit length or not) and
every translation `V`, the quaternion dot product of the real and dual parts
of `from_rotation_and_translation R V` is zero. -/
theorem claim10_real_dual_orthogonal (R : Quaternion α) (V : Vector3 α) :
    Quat.dot (from_rotation_and_translation R V).1
      (from_rotation_and_translation R V).2 = 0 := by
  obtain ⟨s, x, y, z⟩ := R
  obtain ⟨v1, v2, v3⟩ := V
  simp only [from_rotation_and_translation, Quat.dot, Quat.mul, Quat.scale,
    Vec3.add, Vec3.scale, Vec3.dot, Vec3.cross]
  ring

omit [CharZero α] in
/-- Claim C8: every public operation is a total pure function of its inputs:
at every input it returns the explicit closed-form value below, with no
failure case.  The single reciprocal in all of the closed forms occurs in
`normalize`, whose denominator is `sqrt` applied to the real-part dot product
(`dot(q.real, q.real)`), the one numerically unsafe spot. -/
theorem claim8_operations_total (sqrt : α → α)
    (a0 a1 a2 a3 b0 b1 b2 b3 c0 c1 c2 c3 d0 d1 d2 d3 t : α) :
    DualQuat.id (α := α) = ((1, (0, 0, 0)), (0, (0, 0, 0))) ∧
    from_rotation_and_translation ((c0, (c1, c2, c3)) : Quaternion α) (d1, d2, d3) =
      ((c0, (c1, c2, c3)),
       (-(d1 * c1 + d2 * c2 + d3 * c3) / 2,
        ((d1 * c0 + d2 * c3 - d3 * c2) / 2,
         (d2 * c0 + d3 * c1 - d1 * c3) / 2,
         (d3 * c0 + d1 * c2 - d2 * c1) / 2))) ∧
    add (((a0, (a1, a2, a3)), (b0, (b1, b2, b3))) : DualQuaternion α)
        ((c0, (c1, c2, c3)), (d0, (d1, d2, d3))) =
      ((a0 + c0, (a1 + c1, a2 + c2, a3 + c3)),
       (b0 + d0, (b1 + d1, b2 + d2, b3 + d3))) ∧
    mul (((a0, (a1, a2, a3)), (b0, (b1, b2, b3))) : DualQuaternion α)
        ((c0, (c1, c2, c3)), (d0, (d1, d2, d3))) =
      ((a0 * c0 - a1 * c1 - a2 * c2 - a3 * c3,
        (a0 * c1 + a1 * c0 + a2 * c3 - a3 * c2,
         a0 * c2 + a2 * c0 + a3 * c1 - a1 * c3,
         a0 * c3 + a3 * c0 + a1 * c2 - a2 * c1)),
       (a0 * d0 - a1 * d1 - a2 * d2 - a3 * d3 +
          (b0 * c0 - b1 * c1 - b2 * c2 - b3 * c3),
        (a0 * d1 + a1 * d0 + a2 * d3 - a3 * d2 +
           (b0 * c1 + b1 * c0 + b2 * c3 - b3 * c2),
         a0 * d2 + a2 * d0 + a3 * d1 - a1 * d3 +
           (b0 * c2 + b2 * c0 + b3 * c1 - b1 * c3),
         a0 * d3 + a3 * d0 + a1 * d2 - a2 * d1 +
           (b0 * c3 + b3 * c0 + b1 * c2 - b2 * c1)))) ∧
    scale (((a0, (a1, a2, a3)), (b0, (b1, b2, b3))) : DualQuaternion α) t =
      ((a0 * t, (a1 * t, a2 * t, a3 * t)),
       (b0 * t, (b1 * t, b2 * t, b3 * t))) ∧
    conj (((a0, (a1, a2, a3)), (b0, (b1, b2, b3))) : DualQuaternion α) =
      ((a0, (-a1, -a2, -a3)), (b0, (-b1, -b2, -b3))) ∧
    dot (((a0, (a1, a2, a3)), (b0, (b1, b2, b3))) : DualQuaternion α)
        ((c0, (c1, c2, c3)), (d0, (d1, d2, d3))) =
      a0 * c0 + a1 * c1 + a2 * c2 + a3 * c3 ∧
    normalize sqrt (((a0, (a1, a2, a3)), (b0, (b1, b2, b3))) : DualQuaternion α) =
      ((a0 / sqrt (a0 * a0 + (a1 * a1 + a2 * a2 + a3 * a3)),
        (a1 / sqrt (a0 * a0 + (a1 * a1 + a2 * a2 + a3 * a3)),
         a2 / sqrt (a0 * a0 + (a1 * a1 + a2 * a2 + a3 * a3)),
         a3 / sqrt (a0 * a0 + (a1 * a1 + a2 * a2 + a3 * a3)))),
       (b0 / sqrt (a0 * a0 + (a1 * a1 + a2 * a2 + a3 * a3)) -
          a0 * (a0 * b0 + a1 * b1 + a2 * b2 + a3 * b3),
        (b1 / sqrt (a0 * a0 + (a1 * a1 + a2 * a2 + a3 * a3)) -
           a1 * (a0 * b0 + a1 * b1 + a2 * b2 + a3 * b3),
         b2 / sqrt (a0 * a0 + (a1 * a1 + a2 * a2 + a3 * a3)) -
           a2 * (a0 * b0 + a1 * b1 + a2 * b2 + a3 * b3),
         b3 / sqrt (a0 * a0 + (a1 * a1 + a2 * a2 + a3 * a3)) -
           a3 * (a0 * b0 + a1 * b1 + a2 * b2 + a3 * b3)))) ∧
    get_rotation (((a0, (a1, a2, a3)), (b0, (b1, b2, b3))) : DualQuaternion α) =
      (a0, (a1, a2, a3)) ∧
    get_translation (((a0, (a1, a2, a3)), (b0, (b1, b2, b3))) : DualQuaternion α) =
      (2 * (a0 * b1 - a1 * b0 + a2 * b3 - a3 * b2),
       2 * (a0 * b2 - a2 * b0 + a3 * b1 - a1 * b3),
       2 * (a0 * b3 - a3 * b0 + a1 * b2 - a2 * b1)) := by
  refine ⟨rfl, ?_, rfl, ?_, rfl, rfl, ?_, ?_, rfl, ?_⟩
  · simp only [from_rotation_and_translation, Quat.mul, Quat.scale, Vec3.add,
      Vec3.scale, Vec3.dot, Vec3.cross, Prod.mk.injEq]
    ring_nf
    all_goals simp
  · simp only [mul, Quat.mul, Quat.add, Vec3.add, Vec3.scale, Vec3.dot,
      Vec3.cross, Prod.mk.injEq]
    ring_nf
    all_goals simp
  · simp only [dot, Quat.dot, Vec3.dot]
    ring
  · simp only [normalize, dot, Quat.dot, Quat.scale, Quat.add, Vec3.scale,
      Vec3.add, Vec3.dot, Prod.mk.injEq]
    ring_nf
    all_goals simp
  · simp only [get_translation, Quat.mul, Quat.scale, Quat.conj, Vec3.add,
      Vec3.scale, Vec3.dot, Vec3.cross, Vec3.neg, Prod.mk.injEq]
    ring_nf
    all_goals simp

end DualQuat
